import Mathlib

/-!
Verification of the escalation lifecycle engine of the AI-Receptionist
backend (`src/backend/app`): the help-request store operations
(`FirebaseService` in `services/firebase_service.py`), the timeout sweep
(`TimeoutService._process_timeouts` in `services/timeout_service.py`) and
the websocket broadcaster (`ConnectionManager` in
`services/notification_service.py`).

Modelling conventions:
* Timestamps are natural numbers (seconds); the Python code stores ISO-8601
  strings produced from `datetime.utcnow()` and compares them after parsing,
  which is order-isomorphic to comparing the instants themselves.  The two
  back-to-back `datetime.utcnow()` calls inside `create_help_request` are
  modelled by a single instant `now` (the spec's "within test tolerance").
* The Firebase realtime database node `/help_requests` is an association
  list from key to stored value.  A stored value is either a help-request
  dict or a non-dict value: `create_initial_data` in `app/database.py`
  writes the boolean marker `"initialized": True` and an ISO string under
  `"created_at"` into the same node, and every reader skips entries that are
  not dicts (and the key `"initialized"`).  Both non-dict shapes are
  modelled by the single constructor `DbValue.marker`.
* Store availability is an `Except`: an operation's `ref.get()`/`ref.set()`
  raises exactly when the store is in the failed state, so each operation
  receives `Except String Db` and its Python `try/except` policy decides
  whether the failure escapes (`Except.error`) or is swallowed into a
  default return value (`Except.ok default`).
* Fresh uuid4 identifiers are passed in as parameters (`request_id`,
  `kb_id`); writing a fresh key into the knowledge-base node is list append.
* The stored dict also carries `callback_info` (a JSON blob of the raw
  caller_info and creation time) and `attempt_count = 0`; no modelled
  operation reads or modifies either after creation and the response model
  `HelpRequestResponse` drops them, so they are omitted from the record.
-/

namespace Receptionist

/-- `RequestStatus` from `app/models/firebase_models.py`. -/
inductive RequestStatus where
  | pending
  | resolved
  | timeout
deriving DecidableEq, Repr

/-- `KnowledgeSource` from `app/models/firebase_models.py`. -/
inductive KnowledgeSource where
  | initial
  | learned
  | manual
deriving DecidableEq, Repr

/-- A help-request record as stored at `/help_requests/{id}` and returned
through `HelpRequestResponse` (`app/models/firebase_models.py`). -/
structure HelpRequest where
  id : String
  question : String
  caller_info : String
  status : RequestStatus
  created_at : Nat
  resolved_at : Option Nat
  timeout_at : Nat
  answer : Option String
  answered_by : Option String
  session_id : String
deriving DecidableEq, Repr

/-- A knowledge-base entry as stored at `/knowledge_base/{id}`
(`KnowledgeBaseEntry` / `KnowledgeBaseResponse` in
`app/models/firebase_models.py`). -/
structure KnowledgeBaseEntry where
  id : String
  question : String
  answer : String
  source : KnowledgeSource
  created_at : Nat
  updated_at : Nat
  use_count : Nat
deriving DecidableEq, Repr

/-- A value stored under one key of the `/help_requests` node: either a
help-request dict or one of the non-dict bookkeeping values written by
`create_initial_data` (`"initialized": True`, `"created_at": <iso>`),
which every reader skips via its `isinstance(..., dict)` check. -/
inductive DbValue where
  | marker
  | record (r : HelpRequest)
deriving DecidableEq, Repr

/-- The `/help_requests` node: keys to stored values. -/
abbrev Db := List (String × DbValue)

/-- `ref.set` on `/help_requests/{k}`: replace the value at key `k`, or
create the key if absent. -/
def dbSet (db : Db) (k : String) (v : DbValue) : Db :=
  match db with
  | [] => [(k, v)]
  | (k₀, v₀) :: rest =>
      if k₀ = k then (k₀, v) :: rest else (k₀, v₀) :: dbSet rest k v

/-- `ref.get()` on `/help_requests/{k}`: the value at key `k`, if any. -/
def dbGet (db : Db) (k : String) : Option DbValue :=
  match db with
  | [] => none
  | (k₀, v₀) :: rest => if k₀ = k then some v₀ else dbGet rest k

/-- `HelpRequestAnswer` request body (`app/models/firebase_models.py`). -/
structure HelpRequestAnswer where
  answer : String
  supervisor_name : String
deriving DecidableEq, Repr

/-- Escalation timeout duration hardcoded in `create_help_request`:
`timedelta(hours=2)`, in seconds. -/
def escalationTimeoutSeconds : Nat := 7200

/-- `FirebaseService.create_help_request` (firebase_service.py:24-81).
Builds the record — with no validation of `question` — and writes it at the
fresh key `request_id`; a store failure propagates (`except ... raise`).
`caller_info or "Anonymous"` maps the empty (falsy) string to
`"Anonymous"`. -/
def create_help_request (question caller_info session_id : String)
    (request_id : String) (now : Nat) (st : Except String Db) :
    Except String (HelpRequest × Db) :=
  match st with
  | .error e => .error e
  | .ok db =>
      let r : HelpRequest :=
        { id := request_id
          question := question
          caller_info := if caller_info = "" then "Anonymous" else caller_info
          status := RequestStatus.pending
          created_at := now
          resolved_at := none
          timeout_at := now + escalationTimeoutSeconds
          answer := none
          answered_by := none
          session_id := session_id }
      .ok (r, dbSet db request_id (.record r))

/-- `FirebaseService.add_to_knowledge_base` (firebase_service.py:296-335).
Always creates a fresh entry tagged `learned` with `use_count = 0` at a
fresh uuid key (modelled as append); the existing knowledge base is never
consulted. -/
def add_to_knowledge_base (question answer : String) (kb_id : String)
    (now : Nat) (kb : List KnowledgeBaseEntry) :
    KnowledgeBaseEntry × List KnowledgeBaseEntry :=
  let entry : KnowledgeBaseEntry :=
    { id := kb_id
      question := question
      answer := answer
      source := KnowledgeSource.learned
      created_at := now
      updated_at := now
      use_count := 0 }
  (entry, kb ++ [entry])

/-- `FirebaseService.answer_request` (firebase_service.py:177-226).
Reads the record at `request_id`; raises `ValueError` (modelled as
`Except.error`) when the key is absent; on the non-dict marker value the
item assignment raises `TypeError`, re-raised by the `except` clause.  On
any present record — with NO check of the current status — it overwrites
status/answer/answered_by/resolved_at, writes the record back, and appends
a learned knowledge-base entry.  Store failures propagate. -/
def answer_request (request_id : String) (ad : HelpRequestAnswer)
    (now : Nat) (kb_id : String) (st : Except String Db)
    (kb : List KnowledgeBaseEntry) :
    Except String (HelpRequest × Db × List KnowledgeBaseEntry) :=
  match st with
  | .error e => .error e
  | .ok db =>
      match dbGet db request_id with
      | none => .error ("Request " ++ request_id ++ " not found")
      | some .marker => .error "TypeError"
      | some (.record r) =>
          let r2 : HelpRequest :=
            { r with
              status := RequestStatus.resolved
              answer := some ad.answer
              answered_by := some ad.supervisor_name
              resolved_at := some now }
          let kb2 := (add_to_knowledge_base r.question ad.answer kb_id now kb).2
          .ok (r2, dbSet db request_id (.record r2), kb2)

/-- `FirebaseService.timeout_request` (firebase_service.py:228-253).
Reads the record, flips only `status` to `timeout`, writes it back. -/
def timeout_request (request_id : String) (st : Except String Db) :
    Except String (HelpRequest × Db) :=
  match st with
  | .error e => .error e
  | .ok db =>
      match dbGet db request_id with
      | none => .error ("Request " ++ request_id ++ " not found")
      | some .marker => .error "TypeError"
      | some (.record r) =>
          let r2 : HelpRequest := { r with status := RequestStatus.timeout }
          .ok (r2, dbSet db request_id (.record r2))

/-- `FirebaseService.get_request_by_id` (firebase_service.py:155-175).
Any exception is caught and turned into `None`; a missing key is `None`. -/
def get_request_by_id (request_id : String) (st : Except String Db) :
    Option DbValue :=
  match st with
  | .error _ => none
  | .ok db => dbGet db request_id

/-- The body of the record-collection loop shared by
`get_all_help_requests`: keep dict values, skip the key `"initialized"`. -/
def collectAll (db : Db) : List HelpRequest :=
  db.filterMap fun kv =>
    match kv.2 with
    | .marker => none
    | .record r => if kv.1 = "initialized" then none else some r

/-- `FirebaseService.get_all_help_requests` (firebase_service.py:119-153).
A store failure is caught and returns the empty list (`except ... return
[]`), so the result is always `Except.ok`; the collected records are
sorted newest-first by `created_at`. -/
def get_all_help_requests (st : Except String Db) :
    Except String (List HelpRequest) :=
  match st with
  | .error _ => .ok []
  | .ok db =>
      .ok ((collectAll db).mergeSort fun a b => b.created_at ≤ a.created_at)

/-- The statistics returned by `get_stats`. -/
structure Stats where
  pending : Nat
  resolved : Nat
  timeout : Nat
  total : Nat
deriving DecidableEq, Repr

/-- Whether a stored value is a dict with the given status
(`isinstance(r, dict) and r.get("status") == ...` in `get_stats`). -/
def hasStatus (s : RequestStatus) (v : DbValue) : Bool :=
  match v with
  | .marker => false
  | .record r => r.status = s

/-- `FirebaseService.get_stats` (firebase_service.py:255-292).
Counts dict values by status over the whole node (the `"initialized"` key
is NOT skipped here, but its value is not a dict so it counts nowhere);
`total` is the sum of the three counts.  A store failure is caught and
returns all-zero statistics, so the result is always `Except.ok`. -/
def get_stats (st : Except String Db) : Except String Stats :=
  match st with
  | .error _ => .ok ⟨0, 0, 0, 0⟩
  | .ok db =>
      let p := db.countP fun kv => hasStatus RequestStatus.pending kv.2
      let r := db.countP fun kv => hasStatus RequestStatus.resolved kv.2
      let t := db.countP fun kv => hasStatus RequestStatus.timeout kv.2
      .ok ⟨p, r, t, p + r + t⟩

/-- The payload of one `notify_request_timeout` broadcast
(`notification_service.py:140-159`): the fields the sweep reads back out of
the (already status-mutated) snapshot it wrote. -/
structure TimeoutEvent where
  request_id : String
  question : String
  created_at : Nat
  caller_info : String
deriving DecidableEq, Repr

/-- The collection condition of the sweep's scan loop
(`_process_timeouts`, timeout_service.py:49-60): a dict value, key not
`"initialized"`, status still `pending` at the scan read, and
`timeout_at <= now`. -/
def sweepCollects (now : Nat) (k : String) (v : DbValue) : Bool :=
  match v with
  | .marker => false
  | .record r =>
      k ≠ "initialized" && r.status = RequestStatus.pending &&
        r.timeout_at ≤ now

/-- Phase 1 of `_process_timeouts`: the `timed_out_requests` list collected
from the scan snapshot, in store order. -/
def collectTimedOut (now : Nat) (db : Db) : List (String × HelpRequest) :=
  db.filterMap fun kv =>
    match kv.2 with
    | .marker => none
    | .record r =>
        if sweepCollects now kv.1 (.record r) then some (kv.1, r) else none

/-- Phase 2 of `_process_timeouts`: for each collected `(request_id,
request_data)` in order, mutate the snapshot's status to `timeout`, write
it back with `ref.child(request_id).set(...)`, and broadcast
`request_timeout` built from the mutated snapshot. -/
def applyTimeouts (todo : List (String × HelpRequest)) (db : Db) :
    Db × List TimeoutEvent :=
  match todo with
  | [] => (db, [])
  | (k, r) :: rest =>
      let r2 : HelpRequest := { r with status := RequestStatus.timeout }
      let step := applyTimeouts rest (dbSet db k (.record r2))
      (step.1, ⟨r.id, r.question, r.created_at, r.caller_info⟩ :: step.2)

/-- One sweep of `TimeoutService._process_timeouts`
(timeout_service.py:35-81) on an available store: scan a snapshot of the
`/help_requests` node for pending records past their deadline, then write
each back with status `timeout` and emit one `request_timeout` event per
written record.  (A store failure is caught by the surrounding `except`:
nothing is written and no event is emitted.) -/
def process_timeouts (now : Nat) (db : Db) : Db × List TimeoutEvent :=
  applyTimeouts (collectTimedOut now db) db

/-- One live websocket connection held in
`ConnectionManager.active_connections` (notification_service.py:5-45):
an opaque handle plus whether its `send_json` currently succeeds. -/
structure Conn where
  handle : Nat
  send_ok : Bool
deriving DecidableEq, Repr

/-- `ConnectionManager.disconnect` (notification_service.py:17-21):
`list.remove` of the first occurrence, guarded by a membership test. -/
def disconnect (conns : List Conn) (c : Conn) : List Conn :=
  if c ∈ conns then conns.erase c else conns

/-- The outcome of one `ConnectionManager.broadcast` call. -/
structure BroadcastResult where
  registry : List Conn
  attempted : List Conn
  delivered : List Conn
deriving DecidableEq, Repr

/-- `ConnectionManager.broadcast` (notification_service.py:23-45): iterate
over every registered connection, attempting `send_json` on each; a failing
send is caught (never re-raised to the caller), its connection collected
into `failed_connections`; after the loop each failed connection is
disconnected.  `attempted` is the iteration order, `delivered` the
connections whose send succeeded. -/
def broadcast (conns : List Conn) : BroadcastResult :=
  if conns = [] then ⟨conns, [], []⟩
  else
    let failed := conns.filter fun c => !c.send_ok
    ⟨failed.foldl disconnect conns, conns, conns.filter fun c => c.send_ok⟩

/-- The interleaved atomic steps of `answer_request` (+ its route's
notification) and of one sweep iteration racing on the same single record:
each operation is a read of the record, a blind write back, and an event
emission, in program order. -/
inductive RaceStep where
  | rRead
  | rWrite
  | rEmit
  | tRead
  | tWrite
  | tEmit
deriving DecidableEq, Repr

/-- Which of the two racing flows emitted an event for the record's id:
`request_resolved` is broadcast by the answer route after `answer_request`
returns; `request_timeout` is broadcast by the sweep after its write. -/
inductive RaceEvent where
  | request_resolved
  | request_timeout
deriving DecidableEq, Repr

/-- The shared state of the race: the stored record, each flow's private
snapshot from its read (`tSnap` is `some` exactly when the sweep's scan
collected the record, i.e. it was still pending and expired at the scan
read), and the events emitted so far. -/
structure RaceState where
  store : HelpRequest
  rSnap : Option HelpRequest
  tSnap : Option HelpRequest
  events : List RaceEvent
deriving DecidableEq, Repr

/-- One atomic step of the race.  `rWrite` writes the resolve flow's
mutated snapshot (firebase_service.py:203-209); `tWrite` writes the sweep's
mutated snapshot (timeout_service.py:65-67); neither re-checks the stored
status at write time. -/
def raceStep (now : Nat) (ad : HelpRequestAnswer) (resolveTime : Nat)
    (s : RaceState) : RaceStep → RaceState
  | .rRead => { s with rSnap := some s.store }
  | .rWrite =>
      match s.rSnap with
      | none => s
      | some r =>
          { s with store :=
              { r with
                status := RequestStatus.resolved
                answer := some ad.answer
                answered_by := some ad.supervisor_name
                resolved_at := some resolveTime } }
  | .rEmit => { s with events := s.events ++ [RaceEvent.request_resolved] }
  | .tRead =>
      if s.store.status = RequestStatus.pending && s.store.timeout_at ≤ now
      then { s with tSnap := some s.store }
      else { s with tSnap := none }
  | .tWrite =>
      match s.tSnap with
      | none => s
      | some r => { s with store := { r with status := RequestStatus.timeout } }
  | .tEmit =>
      match s.tSnap with
      | none => s
      | some _ => { s with events := s.events ++ [RaceEvent.request_timeout] }

/-- Run a schedule of race steps from a state. -/
def runRace (now : Nat) (ad : HelpRequestAnswer) (resolveTime : Nat)
    (steps : List RaceStep) (s : RaceState) : RaceState :=
  steps.foldl (raceStep now ad resolveTime) s

/-- Program order of the resolve flow: read, write, emit. -/
def resolveSteps : List RaceStep := [RaceStep.rRead, RaceStep.rWrite, RaceStep.rEmit]

/-- Program order of the sweep flow on the record: scan read, write, emit. -/
def sweepSteps : List RaceStep := [RaceStep.tRead, RaceStep.tWrite, RaceStep.tEmit]

/-- All interleavings of two sequential flows, preserving each flow's
program order. -/
def interleavings : List RaceStep → List RaceStep → List (List RaceStep)
  | [], ys => [ys]
  | x :: xs, [] => [x :: xs]
  | x :: xs, y :: ys =>
      (interleavings xs (y :: ys)).map (x :: ·) ++
        (interleavings (x :: xs) ys).map (y :: ·)

/-- The initial race state on one stored record. -/
def raceInit (r : HelpRequest) : RaceState := ⟨r, none, none, []⟩

/-- Spec-side view of the node: the help-request dicts stored in it
(markers dropped), irrespective of key. -/
def recordsOf (db : Db) : List HelpRequest :=
  db.filterMap fun kv =>
    match kv.2 with
    | .marker => none
    | .record r => some r

/-- Store invariant: every help-request dict is stored under its own `id`
(`create_help_request` writes at `/help_requests/{request_id}` with
`"id": request_id`, and no operation changes `id`). -/
def wellKeyed (kv : String × DbValue) : Bool :=
  match kv.2 with
  | .marker => true
  | .record r => r.id = kv.1

/-- The `request_timeout` payload built from one collected snapshot
(after its status mutation; the status field is not part of the
payload). -/
def sweepEvent (kr : String × HelpRequest) : TimeoutEvent :=
  ⟨kr.2.id, kr.2.question, kr.2.created_at, kr.2.caller_info⟩

/-! ### Store lemmas -/

theorem dbGet_dbSet_self (db : Db) (k : String) (v : DbValue) :
    dbGet (dbSet db k v) k = some v := by
  induction db with
  | nil => simp [dbSet, dbGet]
  | cons kv rest ih =>
      obtain ⟨k₀, v₀⟩ := kv
      by_cases h : k₀ = k <;> simp [dbSet, dbGet, h, ih]

theorem dbGet_dbSet_ne (db : Db) (k k₂ : String) (v : DbValue)
    (h : k₂ ≠ k) : dbGet (dbSet db k v) k₂ = dbGet db k₂ := by
  induction db with
  | nil => simp [dbSet, dbGet, Ne.symm h]
  | cons kv rest ih =>
      obtain ⟨k₀, v₀⟩ := kv
      by_cases h₀ : k₀ = k
      · subst h₀
        simp [dbSet, dbGet, Ne.symm h]
      · simp [dbSet, dbGet, h₀, ih]

theorem mem_of_dbGet_eq_some (db : Db) (k : String) (v : DbValue)
    (h : dbGet db k = some v) : (k, v) ∈ db := by
  induction db with
  | nil => simp [dbGet] at h
  | cons kv rest ih =>
      obtain ⟨k₀, v₀⟩ := kv
      by_cases h₀ : k₀ = k
      · subst h₀
        simp [dbGet] at h
        simp [h]
      · simp [dbGet, h₀] at h
        exact List.mem_cons_of_mem _ (ih h)

theorem dbGet_eq_some_of_mem (db : Db) (k : String) (v : DbValue)
    (hnd : (db.map Prod.fst).Nodup) (h : (k, v) ∈ db) :
    dbGet db k = some v := by
  induction db with
  | nil => simp at h
  | cons kv rest ih =>
      obtain ⟨k₀, v₀⟩ := kv
      rw [List.map_cons, List.nodup_cons] at hnd
      rcases List.mem_cons.mp h with h₁ | h₁
      · have hk : k₀ = k := (congrArg Prod.fst h₁).symm
        have hv : v₀ = v := (congrArg Prod.snd h₁).symm
        subst hk
        subst hv
        simp [dbGet]
      · have hkmem : k ∈ rest.map Prod.fst := List.mem_map_of_mem Prod.fst h₁
        have hk : k₀ ≠ k := fun hkk => hnd.1 (hkk ▸ hkmem)
        simp [dbGet, hk, ih hnd.2 h₁]

/-! ### Creation (claims C6, C8) -/

/-- C8: `create_help_request` on an available store with a non-empty
question returns a pending escalation whose `resolved_at`, `answer` and
`answered_by` are absent and whose `timeout_at` equals `created_at` plus
the configured 2-hour timeout (the two back-to-back `utcnow()` calls are
one modelled instant, i.e. the claim's test tolerance is zero here). -/
theorem create_pending_shape (question caller_info session_id request_id : String)
    (now : Nat) (db : Db) (hq : question ≠ "") :
    ∃ r db₂,
      create_help_request question caller_info session_id request_id now
          (Except.ok db) = Except.ok (r, db₂) ∧
        r.status = RequestStatus.pending ∧
        r.resolved_at = none ∧ r.answer = none ∧ r.answered_by = none ∧
        r.created_at = now ∧
        r.timeout_at = r.created_at + escalationTimeoutSeconds :=
  ⟨_, _, rfl, rfl, rfl, rfl, rfl, rfl, rfl⟩

/-- Witness for `create_pending_shape` at the spec's scenario inputs. -/
theorem create_pending_shape_witness :
    "Do you do hair transplants?" ≠ "" ∧
    ∃ r db₂,
      create_help_request "Do you do hair transplants?" "555-0101" "room-42"
          "id-1" 1000 (Except.ok []) = Except.ok (r, db₂) ∧
        r.status = RequestStatus.pending ∧
        r.resolved_at = none ∧ r.answer = none ∧ r.answered_by = none ∧
        r.created_at = 1000 ∧
        r.timeout_at = r.created_at + escalationTimeoutSeconds :=
  ⟨by decide,
   create_pending_shape "Do you do hair transplants?" "555-0101" "room-42"
     "id-1" 1000 [] (by decide)⟩

/-- C6 counterexample: `create_help_request` with an empty question does
not fail — it succeeds and persists a record whose `question` is the empty
string (neither the service nor the route's request model
(`help_requests.py:22-35`, a plain `question: str`) checks emptiness). -/
theorem create_empty_question_accepted :
    create_help_request "" "555-0101" "room-1" "id-1" 0 (Except.ok []) =
      Except.ok
        (⟨"id-1", "", "555-0101", RequestStatus.pending, 0, none, 7200,
            none, none, "room-1"⟩,
         [("id-1",
           DbValue.record
             ⟨"id-1", "", "555-0101", RequestStatus.pending, 0, none, 7200,
               none, none, "room-1"⟩)]) := by
  rfl

/-- C6 amended: `create_help_request` performs no validation of the
question; called with the empty question it succeeds and persists a
pending record with `question = ""` under the fresh key. -/
theorem create_skips_validation (caller_info session_id request_id : String)
    (now : Nat) (db : Db) :
    ∃ r db₂,
      create_help_request "" caller_info session_id request_id now
          (Except.ok db) = Except.ok (r, db₂) ∧
        r.question = "" ∧ r.status = RequestStatus.pending ∧
        dbGet db₂ request_id = some (DbValue.record r) :=
  ⟨_, _, rfl, rfl, rfl, dbGet_dbSet_self db request_id _⟩

/-! ### Error propagation (claim C5) -/

/-- C5 counterexample: with the backing store failing, `get_stats` returns
zeroed statistics, `get_all_help_requests` returns the empty list and
`get_request_by_id` returns `none` — the store error is swallowed into a
default result, not surfaced. -/
theorem queries_swallow_store_errors :
    get_stats (Except.error "store down") = Except.ok ⟨0, 0, 0, 0⟩ ∧
    get_all_help_requests (Except.error "store down") = Except.ok [] ∧
    get_request_by_id "r1" (Except.error "store down") = none :=
  ⟨rfl, rfl, rfl⟩

/-- C5 amended: `create_help_request`, `answer_request` and
`timeout_request` re-raise store failures, while `get_request_by_id`,
`get_all_help_requests` and `get_stats` catch them and return `None`, the
empty list and zeroed statistics respectively. -/
theorem error_propagation_policy (e : String)
    (q ci sid rid kbid : String) (now : Nat) (ad : HelpRequestAnswer)
    (kb : List KnowledgeBaseEntry) :
    create_help_request q ci sid rid now (Except.error e) = Except.error e ∧
    answer_request rid ad now kbid (Except.error e) kb = Except.error e ∧
    timeout_request rid (Except.error e) = Except.error e ∧
    get_request_by_id rid (Except.error e) = none ∧
    get_all_help_requests (Except.error e) = Except.ok [] ∧
    get_stats (Except.error e) = Except.ok ⟨0, 0, 0, 0⟩ :=
  ⟨rfl, rfl, rfl, rfl, rfl, rfl⟩

/-! ### Resolution (claims C1, C7) -/

/-- C1 counterexample: resolving the already-timed-out record `"r1"`
succeeds (no `InvalidState`) and changes the stored record — the read
snapshot is blindly overwritten with status `resolved` and the answer
fields. -/
theorem resolve_terminal_succeeds :
    answer_request "r1" ⟨"ans", "Sarah"⟩ 50 "kb1"
        (Except.ok [("r1",
          DbValue.record
            ⟨"r1", "q1", "Bob", RequestStatus.timeout, 0, none, 10,
              none, none, "s1"⟩)]) [] =
      Except.ok
        (⟨"r1", "q1", "Bob", RequestStatus.resolved, 0, some 50, 10,
            some "ans", some "Sarah", "s1"⟩,
         [("r1",
           DbValue.record
             ⟨"r1", "q1", "Bob", RequestStatus.resolved, 0, some 50, 10,
               some "ans", some "Sarah", "s1"⟩)],
         [⟨"kb1", "q1", "ans", KnowledgeSource.learned, 50, 50, 0⟩]) ∧
    (⟨"r1", "q1", "Bob", RequestStatus.resolved, 0, some 50, 10,
        some "ans", some "Sarah", "s1"⟩ : HelpRequest) ≠
      ⟨"r1", "q1", "Bob", RequestStatus.timeout, 0, none, 10,
        none, none, "s1"⟩ :=
  ⟨rfl, by decide⟩

/-- C1 amended: `answer_request` performs no check-and-set and has no
`InvalidState` outcome: on ANY stored record — pending, resolved or timed
out alike — it succeeds, overwriting the record with status `resolved`,
the supplied answer fields and a fresh `resolved_at`; only an unknown id
fails. -/
theorem answer_request_blind_overwrite (request_id : String)
    (ad : HelpRequestAnswer) (now : Nat) (kb_id : String) (db : Db)
    (kb : List KnowledgeBaseEntry) (r : HelpRequest)
    (h : dbGet db request_id = some (DbValue.record r)) :
    answer_request request_id ad now kb_id (Except.ok db) kb =
      Except.ok
        ({ r with
            status := RequestStatus.resolved
            answer := some ad.answer
            answered_by := some ad.supervisor_name
            resolved_at := some now },
         dbSet db request_id
           (DbValue.record
             { r with
                status := RequestStatus.resolved
                answer := some ad.answer
                answered_by := some ad.supervisor_name
                resolved_at := some now }),
         kb ++ [⟨kb_id, r.question, ad.answer, KnowledgeSource.learned,
                  now, now, 0⟩]) := by
  simp [answer_request, h, add_to_knowledge_base]

/-- Witness for `answer_request_blind_overwrite` on a timed-out record. -/
theorem answer_request_blind_overwrite_witness :
    answer_request "w1" ⟨"a", "S"⟩ 7 "k1"
        (Except.ok [("w1",
          DbValue.record
            ⟨"w1", "q", "B", RequestStatus.timeout, 0, none, 5,
              none, none, "s"⟩)]) [] =
      Except.ok
        (⟨"w1", "q", "B", RequestStatus.resolved, 0, some 7, 5,
            some "a", some "S", "s"⟩,
         [("w1",
           DbValue.record
             ⟨"w1", "q", "B", RequestStatus.resolved, 0, some 7, 5,
               some "a", some "S", "s"⟩)],
         [⟨"k1", "q", "a", KnowledgeSource.learned, 7, 7, 0⟩]) :=
  answer_request_blind_overwrite "w1" ⟨"a", "S"⟩ 7 "k1"
    [("w1", DbValue.record
      ⟨"w1", "q", "B", RequestStatus.timeout, 0, none, 5, none, none, "s"⟩)]
    []
    ⟨"w1", "q", "B", RequestStatus.timeout, 0, none, 5, none, none, "s"⟩
    (by simp [dbGet])

/-- C7: a successful `answer_request` on a pending record appends exactly
one new knowledge-base entry — tagged `learned`, `use_count = 0`, with the
escalation's original question and the supplied answer — to whatever the
knowledge base already contains (no lookup, no merge). -/
theorem resolve_records_learned_entry (request_id : String)
    (ad : HelpRequestAnswer) (now : Nat) (kb_id : String) (db : Db)
    (kb : List KnowledgeBaseEntry) (r : HelpRequest)
    (h : dbGet db request_id = some (DbValue.record r))
    (hp : r.status = RequestStatus.pending) :
    ∃ resp db₂ entry,
      answer_request request_id ad now kb_id (Except.ok db) kb =
        Except.ok (resp, db₂, kb ++ [entry]) ∧
      entry.source = KnowledgeSource.learned ∧ entry.use_count = 0 ∧
      entry.question = r.question ∧ entry.answer = ad.answer := by
  refine ⟨{ r with
      status := RequestStatus.resolved
      answer := some ad.answer
      answered_by := some ad.supervisor_name
      resolved_at := some now },
    dbSet db request_id
      (DbValue.record { r with
        status := RequestStatus.resolved
        answer := some ad.answer
        answered_by := some ad.supervisor_name
        resolved_at := some now }),
    ⟨kb_id, r.question, ad.answer, KnowledgeSource.learned, now, now, 0⟩,
    ?_, rfl, rfl, rfl, rfl⟩
  simp [answer_request, h, add_to_knowledge_base]

/-- Witness for `resolve_records_learned_entry` at the spec's scenario. -/
theorem resolve_records_learned_entry_witness :
    ∃ resp db₂ entry,
      answer_request "p1" ⟨"24 hours notice required", "Sarah"⟩ 9 "k2"
          (Except.ok [("p1",
            DbValue.record
              ⟨"p1", "cancel policy?", "555", RequestStatus.pending, 0,
                none, 7200, none, none, "s"⟩)]) [] =
        Except.ok (resp, db₂, [] ++ [entry]) ∧
      entry.source = KnowledgeSource.learned ∧ entry.use_count = 0 ∧
      entry.question = "cancel policy?" ∧
      entry.answer = "24 hours notice required" :=
  resolve_records_learned_entry "p1" ⟨"24 hours notice required", "Sarah"⟩
    9 "k2"
    [("p1", DbValue.record
      ⟨"p1", "cancel policy?", "555", RequestStatus.pending, 0,
        none, 7200, none, none, "s"⟩)]
    []
    ⟨"p1", "cancel policy?", "555", RequestStatus.pending, 0,
      none, 7200, none, none, "s"⟩
    (by simp [dbGet]) rfl

/-! ### Timeout transition frame (claim C10) -/

/-- C10: `timeout_request` writes back exactly the snapshot it read with
only `status` changed to `timeout`; every other field — id, question,
caller_info, created_at, timeout_at, resolved_at, answer, answered_by,
session_id — keeps the value the record had when it was read (so fields
absent at the read, such as `resolved_at`, stay absent).  The sweep's
per-record write (`timeout_service.py:65-67`) applies the identical
status-only mutation, covered by the C3 theorem. -/
theorem timeout_changes_only_status (request_id : String) (db : Db)
    (r : HelpRequest) (h : dbGet db request_id = some (DbValue.record r)) :
    ∃ r₂ db₂,
      timeout_request request_id (Except.ok db) = Except.ok (r₂, db₂) ∧
      r₂.status = RequestStatus.timeout ∧
      r₂.id = r.id ∧ r₂.question = r.question ∧
      r₂.caller_info = r.caller_info ∧ r₂.created_at = r.created_at ∧
      r₂.timeout_at = r.timeout_at ∧ r₂.resolved_at = r.resolved_at ∧
      r₂.answer = r.answer ∧ r₂.answered_by = r.answered_by ∧
      r₂.session_id = r.session_id ∧
      db₂ = dbSet db request_id (DbValue.record r₂) := by
  refine ⟨{ r with status := RequestStatus.timeout },
    dbSet db request_id
      (DbValue.record { r with status := RequestStatus.timeout }),
    ?_, rfl, rfl, rfl, rfl, rfl, rfl, rfl, rfl, rfl, rfl, rfl⟩
  simp [timeout_request, h]

/-- Witness for `timeout_changes_only_status` on a pending record. -/
theorem timeout_changes_only_status_witness :
    ∃ r₂ db₂,
      timeout_request "t1"
          (Except.ok [("t1",
            DbValue.record
              ⟨"t1", "q", "B", RequestStatus.pending, 3, none, 8,
                none, none, "s"⟩)]) = Except.ok (r₂, db₂) ∧
      r₂.status = RequestStatus.timeout ∧
      r₂.id = "t1" ∧ r₂.question = "q" ∧
      r₂.caller_info = "B" ∧ r₂.created_at = 3 ∧
      r₂.timeout_at = 8 ∧ r₂.resolved_at = none ∧
      r₂.answer = none ∧ r₂.answered_by = none ∧
      r₂.session_id = "s" ∧
      db₂ = dbSet [("t1",
        DbValue.record
          ⟨"t1", "q", "B", RequestStatus.pending, 3, none, 8,
            none, none, "s"⟩)] "t1" (DbValue.record r₂) :=
  timeout_changes_only_status "t1"
    [("t1", DbValue.record
      ⟨"t1", "q", "B", RequestStatus.pending, 3, none, 8,
        none, none, "s"⟩)]
    ⟨"t1", "q", "B", RequestStatus.pending, 3, none, 8, none, none, "s"⟩
    (by simp [dbGet])

/-! ### Statistics (claim C9) -/

theorem recordsOf_cons_marker (k : String) (rest : Db) :
    recordsOf ((k, DbValue.marker) :: rest) = recordsOf rest := rfl

theorem recordsOf_cons_record (k : String) (r : HelpRequest) (rest : Db) :
    recordsOf ((k, DbValue.record r) :: rest) = r :: recordsOf rest := rfl

theorem hasStatus_marker (s : RequestStatus) :
    hasStatus s DbValue.marker = false := rfl

theorem hasStatus_record (s : RequestStatus) (r : HelpRequest) :
    hasStatus s (DbValue.record r) = decide (r.status = s) := rfl

theorem countP_hasStatus (s : RequestStatus) (db : Db) :
    (db.countP fun kv => hasStatus s kv.2) =
      ((recordsOf db).filter fun r => r.status = s).length := by
  induction db with
  | nil => rfl
  | cons kv rest ih =>
      obtain ⟨k, v⟩ := kv
      cases v with
      | marker =>
          rw [List.countP_cons, recordsOf_cons_marker, ih, hasStatus_marker]
          rfl
      | record r =>
          rw [List.countP_cons, recordsOf_cons_record, hasStatus_record]
          by_cases h : r.status = s
          · rw [List.filter_cons_of_pos (by simpa using h),
              List.length_cons, ih]
            simp [h]
          · rw [List.filter_cons_of_neg (by simpa using h), ih]
            simp [h]

/-- C9: on an available store, `get_stats` counts exactly the stored
help-request dicts carrying each status — `pending`, `resolved`,
`timeout` — and returns `total` equal to the sum of the three counts; in
particular over a node holding 2 pending, 1 resolved and 1 timed-out
record (plus the non-dict `initialized` marker) it returns
`{pending: 2, resolved: 1, timeout: 1, total: 4}`. -/
theorem get_stats_counts_by_status (db : Db) :
    (∃ s, get_stats (Except.ok db) = Except.ok s ∧
      s.pending =
        ((recordsOf db).filter fun r =>
          r.status = RequestStatus.pending).length ∧
      s.resolved =
        ((recordsOf db).filter fun r =>
          r.status = RequestStatus.resolved).length ∧
      s.timeout =
        ((recordsOf db).filter fun r =>
          r.status = RequestStatus.timeout).length ∧
      s.total = s.pending + s.resolved + s.timeout) ∧
    get_stats (Except.ok
      [("initialized", DbValue.marker),
       ("a", DbValue.record
         ⟨"a", "qa", "A", RequestStatus.pending, 0, none, 7200,
           none, none, "sa"⟩),
       ("b", DbValue.record
         ⟨"b", "qb", "B", RequestStatus.pending, 1, none, 7201,
           none, none, "sb"⟩),
       ("c", DbValue.record
         ⟨"c", "qc", "C", RequestStatus.resolved, 2, some 9, 7202,
           some "ac", some "Sue", "sc"⟩),
       ("d", DbValue.record
         ⟨"d", "qd", "D", RequestStatus.timeout, 3, none, 4,
           none, none, "sd"⟩)]) = Except.ok ⟨2, 1, 1, 4⟩ := by
  constructor
  · exact ⟨_, rfl, countP_hasStatus _ db, countP_hasStatus _ db,
      countP_hasStatus _ db, rfl⟩
  · rfl

/-! ### Broadcast (claim C4) -/

theorem filter_ok_of_no_fail (conns : List Conn)
    (h : (conns.filter fun c => !c.send_ok) = []) :
    (conns.filter fun c => c.send_ok) = conns := by
  apply List.filter_eq_self.mpr
  intro c hc
  have h₂ := List.filter_eq_nil.mp h c hc
  simpa using h₂

theorem erase_fail_eq_filter (c : Conn) (hc : c.send_ok = false) :
    ∀ conns : List Conn, (conns.filter fun x => !x.send_ok) = [c] →
      conns.erase c = conns.filter fun x => x.send_ok := by
  intro conns
  induction conns with
  | nil => intro h; simp at h
  | cons a l ih =>
      intro h
      by_cases ha : a.send_ok
      · rw [List.filter_cons_of_neg (by simp [ha])] at h
        have hac : a ≠ c := fun e => by
          rw [e, hc] at ha
          exact Bool.noConfusion ha
        rw [List.erase_cons_tail (by simpa using hac),
          List.filter_cons_of_pos (by simpa using ha), ih h]
      · have ha₂ : a.send_ok = false := by simpa using ha
        rw [List.filter_cons_of_pos (by simp [ha₂])] at h
        have h₁ : a = c := (List.cons.inj h).1
        have h₂ : (l.filter fun x => !x.send_ok) = [] := (List.cons.inj h).2
        subst h₁
        rw [List.erase_cons_head, List.filter_cons_of_neg (by simp [ha₂]),
          filter_ok_of_no_fail l h₂]

theorem broadcast_attempted_length (conns : List Conn) :
    (broadcast conns).attempted.length = conns.length := by
  by_cases h : conns = [] <;> simp [broadcast, h]

/-- C4: with the registered connections holding exactly one connection
whose send fails, one `broadcast` call attempts delivery to every
registered connection in order, delivers to all the others (one fewer than
registered), removes exactly the failing connection from the registry, and
a subsequent `broadcast` attempts one connection fewer; the failure is
caught inside the loop (`broadcast` is a total function of the registry,
never an error). -/
theorem broadcast_one_failure (conns : List Conn)
    (h : (conns.countP fun c => !c.send_ok) = 1) :
    (broadcast conns).attempted = conns ∧
    (broadcast conns).delivered = (conns.filter fun c => c.send_ok) ∧
    (broadcast conns).delivered.length + 1 = conns.length ∧
    (broadcast conns).registry = (conns.filter fun c => c.send_ok) ∧
    (∀ c ∈ conns, c.send_ok = false → c ∉ (broadcast conns).registry) ∧
    (broadcast (broadcast conns).registry).attempted.length + 1 =
      conns.length := by
  have hne : conns ≠ [] := by
    intro e
    rw [e] at h
    exact Nat.noConfusion h
  have hflen : (conns.filter fun c => !c.send_ok).length = 1 := by
    rw [← List.countP_eq_length_filter]
    exact h
  obtain ⟨c, hc⟩ := List.length_eq_one.mp hflen
  have hcf : c.send_ok = false := by
    have := List.of_mem_filter (l := conns) (a := c)
      (hc ▸ List.mem_singleton_self c)
    simpa using this
  have hcmem : c ∈ conns :=
    List.mem_of_mem_filter (hc ▸ List.mem_singleton_self c)
  have hreg : (broadcast conns).registry = conns.filter fun x => x.send_ok := by
    simp only [broadcast, if_neg hne, hc]
    show disconnect conns c = conns.filter fun x => x.send_ok
    rw [disconnect, if_pos hcmem]
    exact erase_fail_eq_filter c hcf conns hc
  have hlen : (conns.filter fun x => x.send_ok).length + 1 = conns.length := by
    have hsplit := List.length_eq_countP_add_countP (fun c => c.send_ok) conns
    have heq : (conns.countP fun a => decide ¬a.send_ok = true) =
        conns.countP fun c => !c.send_ok :=
      List.countP_congr fun a _ => by cases hso : a.send_ok <;> simp [hso]
    rw [heq] at hsplit
    rw [← List.countP_eq_length_filter]
    omega
  refine ⟨by simp [broadcast, if_neg hne], by simp [broadcast, if_neg hne],
    ?_, hreg, ?_, ?_⟩
  · have hd : (broadcast conns).delivered = conns.filter fun c => c.send_ok := by
      simp [broadcast, if_neg hne]
    rw [hd]
    exact hlen
  · intro c₂ _ hc₂
    rw [hreg]
    intro hmem
    have := List.of_mem_filter hmem
    rw [hc₂] at this
    exact Bool.noConfusion this
  · rw [broadcast_attempted_length, hreg]
    exact hlen

/-- Witness for `broadcast_one_failure`: three connections, the middle one
failing; the other two stay registered and delivered-to. -/
theorem broadcast_one_failure_witness :
    (broadcast [⟨0, true⟩, ⟨1, false⟩, ⟨2, true⟩]).registry =
      [⟨0, true⟩, ⟨2, true⟩] ∧
    (broadcast [⟨0, true⟩, ⟨1, false⟩, ⟨2, true⟩]).delivered.length + 1 = 3 := by
  have h := broadcast_one_failure [⟨0, true⟩, ⟨1, false⟩, ⟨2, true⟩] (by decide)
  exact ⟨h.2.2.2.1.trans (by decide), h.2.2.1⟩

/-! ### Timeout sweep (claim C3) -/

theorem applyTimeouts_snd (todo : List (String × HelpRequest)) (db : Db) :
    (applyTimeouts todo db).2 = todo.map sweepEvent := by
  induction todo generalizing db with
  | nil => rfl
  | cons kr rest ih =>
      obtain ⟨k, r⟩ := kr
      simp [applyTimeouts, ih, sweepEvent]

theorem applyTimeouts_get_notmem (todo : List (String × HelpRequest))
    (db : Db) (k : String) (hk : k ∉ todo.map Prod.fst) :
    dbGet (applyTimeouts todo db).1 k = dbGet db k := by
  induction todo generalizing db with
  | nil => rfl
  | cons kr rest ih =>
      obtain ⟨k₀, r₀⟩ := kr
      rw [List.map_cons, List.mem_cons] at hk
      push_neg at hk
      show dbGet (applyTimeouts rest (dbSet db k₀ _)).1 k = dbGet db k
      rw [ih _ hk.2, dbGet_dbSet_ne db k₀ k _ hk.1]

theorem applyTimeouts_get_mem (todo : List (String × HelpRequest))
    (hnd : (todo.map Prod.fst).Nodup) (k : String) (r : HelpRequest)
    (hm : (k, r) ∈ todo) (db : Db) :
    dbGet (applyTimeouts todo db).1 k =
      some (DbValue.record { r with status := RequestStatus.timeout }) := by
  induction todo generalizing db with
  | nil => simp at hm
  | cons kr rest ih =>
      obtain ⟨k₀, r₀⟩ := kr
      rw [List.map_cons, List.nodup_cons] at hnd
      rcases List.mem_cons.mp hm with h₁ | h₁
      · have hk : k₀ = k := (congrArg Prod.fst h₁).symm
        have hr : r₀ = r := (congrArg Prod.snd h₁).symm
        subst hk
        subst hr
        show dbGet (applyTimeouts rest (dbSet db k₀ _)).1 k₀ = _
        rw [applyTimeouts_get_notmem rest _ k₀ hnd.1, dbGet_dbSet_self]
      · show dbGet (applyTimeouts rest (dbSet db k₀ _)).1 k = _
        exact ih hnd.2 h₁ _

theorem collect_keys_sublist (now : Nat) (db : Db) :
    ((collectTimedOut now db).map Prod.fst).Sublist (db.map Prod.fst) := by
  induction db with
  | nil => simp [collectTimedOut]
  | cons kv rest ih =>
      obtain ⟨k, v⟩ := kv
      cases v with
      | marker =>
          show ((collectTimedOut now rest).map Prod.fst).Sublist _
          exact ih.cons k
      | record r =>
          by_cases hs : sweepCollects now k (DbValue.record r) = true
          · rw [show collectTimedOut now ((k, DbValue.record r) :: rest) =
                (k, r) :: collectTimedOut now rest by
              simp [collectTimedOut, hs]]
            exact ih.cons₂ k
          · rw [show collectTimedOut now ((k, DbValue.record r) :: rest) =
                collectTimedOut now rest by
              simp [collectTimedOut, hs]]
            exact ih.cons k

theorem mem_collect (now : Nat) (db : Db) (k : String) (r : HelpRequest)
    (h : dbGet db k = some (DbValue.record r))
    (hs : sweepCollects now k (DbValue.record r) = true) :
    (k, r) ∈ collectTimedOut now db := by
  induction db with
  | nil => simp [dbGet] at h
  | cons kv rest ih =>
      obtain ⟨k₀, v₀⟩ := kv
      by_cases hk : k₀ = k
      · subst hk
        rw [dbGet, if_pos rfl] at h
        have hv : v₀ = DbValue.record r := Option.some.inj h
        subst hv
        rw [show collectTimedOut now ((k₀, DbValue.record r) :: rest) =
            (k₀, r) :: collectTimedOut now rest by
          simp [collectTimedOut, hs]]
        exact List.mem_cons_self _ _
      · rw [dbGet, if_neg hk] at h
        cases v₀ with
        | marker => exact ih h
        | record r₀ =>
            by_cases hs₀ : sweepCollects now k₀ (DbValue.record r₀) = true
            · rw [show collectTimedOut now ((k₀, DbValue.record r₀) :: rest) =
                  (k₀, r₀) :: collectTimedOut now rest by
                simp [collectTimedOut, hs₀]]
              exact List.mem_cons_of_mem _ (ih h)
            · rw [show collectTimedOut now ((k₀, DbValue.record r₀) :: rest) =
                  collectTimedOut now rest by
                simp [collectTimedOut, hs₀]]
              exact ih h

theorem collect_sub (now : Nat) (db : Db) (k : String) (r : HelpRequest)
    (hm : (k, r) ∈ collectTimedOut now db) :
    (k, DbValue.record r) ∈ db ∧
      sweepCollects now k (DbValue.record r) = true := by
  induction db with
  | nil => simp [collectTimedOut] at hm
  | cons kv rest ih =>
      obtain ⟨k₀, v₀⟩ := kv
      cases v₀ with
      | marker =>
          rw [show collectTimedOut now ((k₀, DbValue.marker) :: rest) =
              collectTimedOut now rest from rfl] at hm
          exact ⟨List.mem_cons_of_mem _ (ih hm).1, (ih hm).2⟩
      | record r₀ =>
          by_cases hs₀ : sweepCollects now k₀ (DbValue.record r₀) = true
          · rw [show collectTimedOut now ((k₀, DbValue.record r₀) :: rest) =
                (k₀, r₀) :: collectTimedOut now rest by
              simp [collectTimedOut, hs₀]] at hm
            rcases List.mem_cons.mp hm with h₁ | h₁
            · have hk : k₀ = k := (congrArg Prod.fst h₁).symm
              have hr : r₀ = r := (congrArg Prod.snd h₁).symm
              subst hk
              subst hr
              exact ⟨List.mem_cons_self _ _, hs₀⟩
            · exact ⟨List.mem_cons_of_mem _ (ih h₁).1, (ih h₁).2⟩
          · rw [show collectTimedOut now ((k₀, DbValue.record r₀) :: rest) =
                collectTimedOut now rest by
              simp [collectTimedOut, hs₀]] at hm
            exact ⟨List.mem_cons_of_mem _ (ih hm).1, (ih hm).2⟩

theorem notmem_collect_keys (now : Nat) (db : Db)
    (hnd : (db.map Prod.fst).Nodup) (k : String) (v : DbValue)
    (h : dbGet db k = some v) (hs : sweepCollects now k v = false) :
    k ∉ (collectTimedOut now db).map Prod.fst := by
  intro hmem
  obtain ⟨kr, hkr, hkrk⟩ := List.mem_map.mp hmem
  obtain ⟨k₂, r₂⟩ := kr
  subst hkrk
  obtain ⟨hmem₂, hs₂⟩ := collect_sub now db _ r₂ hkr
  have := dbGet_eq_some_of_mem db _ _ hnd hmem₂
  rw [h] at this
  have hv : v = DbValue.record r₂ := Option.some.inj this
  subst hv
  rw [hs₂] at hs
  exact Bool.noConfusion hs

theorem dbGet_eq_none_iff (db : Db) (k : String) :
    dbGet db k = none ↔ k ∉ db.map Prod.fst := by
  induction db with
  | nil => simp [dbGet]
  | cons kv rest ih =>
      obtain ⟨k₀, v₀⟩ := kv
      by_cases hk : k₀ = k
      · subst hk
        simp [dbGet]
      · simp [dbGet, hk, ih, Ne.symm hk]

theorem countP_key_eq_one (L : List (String × HelpRequest)) (k : String)
    (hnd : (L.map Prod.fst).Nodup) (r : HelpRequest) (hm : (k, r) ∈ L) :
    (L.countP fun kr => kr.1 = k) = 1 := by
  induction L with
  | nil => simp at hm
  | cons kr rest ih =>
      obtain ⟨k₀, r₀⟩ := kr
      rw [List.map_cons, List.nodup_cons] at hnd
      rcases List.mem_cons.mp hm with h₁ | h₁
      · have hk : k₀ = k := (congrArg Prod.fst h₁).symm
        subst hk
        rw [List.countP_cons]
        have hzero : (rest.countP fun kr => kr.1 = k₀) = 0 := by
          rw [List.countP_eq_zero]
          intro a ha
          simp only [decide_eq_true_eq]
          intro hak
          apply hnd.1
          rw [← hak]
          exact List.mem_map.mpr ⟨a, ha, rfl⟩
        simp [hzero]
      · have hk : k₀ ≠ k := by
          intro hkk
          apply hnd.1
          rw [hkk]
          exact List.mem_map.mpr ⟨(k, r), h₁, rfl⟩
        rw [List.countP_cons, ih hnd.2 h₁]
        simp [hk]

/-- C3: one sweep of `_process_timeouts` over an available store (with
distinct keys, every record stored under its own id) transitions to
`timeout` exactly the help-request records that are still `pending` with
`timeout_at ≤ now` (and are not under the skipped `initialized` key),
emits exactly one `request_timeout` event per transitioned record and none
for any other record, and leaves every other key — untimed records,
markers, absent keys — exactly as it was. -/
theorem process_timeouts_spec (now : Nat) (db : Db)
    (hnd : (db.map Prod.fst).Nodup)
    (hid : ∀ kv ∈ db, wellKeyed kv = true) :
    (∀ k r, dbGet db k = some (DbValue.record r) →
        sweepCollects now k (DbValue.record r) = true →
        dbGet (process_timeouts now db).1 k =
          some (DbValue.record { r with status := RequestStatus.timeout }) ∧
        ((process_timeouts now db).2.countP fun e =>
          e.request_id = r.id) = 1) ∧
    (∀ k r, dbGet db k = some (DbValue.record r) →
        sweepCollects now k (DbValue.record r) = false →
        dbGet (process_timeouts now db).1 k =
          some (DbValue.record r) ∧
        ((process_timeouts now db).2.countP fun e =>
          e.request_id = r.id) = 0) ∧
    (∀ k, dbGet db k = some DbValue.marker →
        dbGet (process_timeouts now db).1 k = some DbValue.marker) ∧
    (∀ k, dbGet db k = none →
        dbGet (process_timeouts now db).1 k = none) := by
  have hcnd : ((collectTimedOut now db).map Prod.fst).Nodup :=
    hnd.sublist (collect_keys_sublist now db)
  have hcid : ∀ kr ∈ collectTimedOut now db,
      (kr : String × HelpRequest).2.id = kr.1 := by
    intro kr hkr
    obtain ⟨k₂, r₂⟩ := kr
    obtain ⟨hmem₂, _⟩ := collect_sub now db _ _ hkr
    have := hid _ hmem₂
    simpa [wellKeyed] using this
  have hevs : (process_timeouts now db).2 =
      (collectTimedOut now db).map sweepEvent :=
    applyTimeouts_snd _ _
  have hcount : ∀ k, ((process_timeouts now db).2.countP fun e =>
      e.request_id = k) = ((collectTimedOut now db).countP fun kr =>
        kr.1 = k) := by
    intro k
    rw [hevs, List.countP_map]
    apply List.countP_congr
    intro kr hkr
    simp only [Function.comp, sweepEvent, hcid kr hkr]
  refine ⟨?_, ?_, ?_, ?_⟩
  · intro k r h hs
    have hm := mem_collect now db k r h hs
    have hidr : r.id = k := by
      have := hid _ (mem_of_dbGet_eq_some db k _ h)
      simpa [wellKeyed] using this
    refine ⟨applyTimeouts_get_mem _ hcnd k r hm db, ?_⟩
    rw [hidr, hcount k]
    exact countP_key_eq_one _ k hcnd r hm
  · intro k r h hs
    have hk : k ∉ (collectTimedOut now db).map Prod.fst :=
      notmem_collect_keys now db hnd k _ h hs
    have hidr : r.id = k := by
      have := hid _ (mem_of_dbGet_eq_some db k _ h)
      simpa [wellKeyed] using this
    refine ⟨?_, ?_⟩
    · rw [show (process_timeouts now db).1 =
          (applyTimeouts (collectTimedOut now db) db).1 from rfl,
        applyTimeouts_get_notmem _ _ _ hk, h]
    · rw [hidr, hcount k, List.countP_eq_zero]
      intro kr hkr
      simp only [decide_eq_true_eq]
      intro hkrk
      exact hk (hkrk ▸ List.mem_map_of_mem Prod.fst hkr)
  · intro k h
    have hk : k ∉ (collectTimedOut now db).map Prod.fst :=
      notmem_collect_keys now db hnd k _ h rfl
    rw [show (process_timeouts now db).1 =
        (applyTimeouts (collectTimedOut now db) db).1 from rfl,
      applyTimeouts_get_notmem _ _ _ hk, h]
  · intro k h
    have hk₀ : k ∉ db.map Prod.fst := (dbGet_eq_none_iff db k).mp h
    have hk : k ∉ (collectTimedOut now db).map Prod.fst := fun hmem =>
      hk₀ ((collect_keys_sublist now db).subset hmem)
    rw [show (process_timeouts now db).1 =
        (applyTimeouts (collectTimedOut now db) db).1 from rfl,
      applyTimeouts_get_notmem _ _ _ hk, h]

/-- Witness for `process_timeouts_spec`: a store holding the marker, one
expired pending record and one fresh pending record; the sweep times out
exactly the expired one and emits exactly one event for it. -/
theorem process_timeouts_spec_witness :
    dbGet (process_timeouts 100
        [("initialized", DbValue.marker),
         ("e1", DbValue.record
           ⟨"e1", "q1", "A", RequestStatus.pending, 0, none, 50,
             none, none, "s1"⟩),
         ("e2", DbValue.record
           ⟨"e2", "q2", "B", RequestStatus.pending, 0, none, 900,
             none, none, "s2"⟩)]).1 "e1" =
      some (DbValue.record
        ⟨"e1", "q1", "A", RequestStatus.timeout, 0, none, 50,
          none, none, "s1"⟩) ∧
    ((process_timeouts 100
        [("initialized", DbValue.marker),
         ("e1", DbValue.record
           ⟨"e1", "q1", "A", RequestStatus.pending, 0, none, 50,
             none, none, "s1"⟩),
         ("e2", DbValue.record
           ⟨"e2", "q2", "B", RequestStatus.pending, 0, none, 900,
             none, none, "s2"⟩)]).2.countP fun e =>
      e.request_id = "e1") = 1 ∧
    dbGet (process_timeouts 100
        [("initialized", DbValue.marker),
         ("e1", DbValue.record
           ⟨"e1", "q1", "A", RequestStatus.pending, 0, none, 50,
             none, none, "s1"⟩),
         ("e2", DbValue.record
           ⟨"e2", "q2", "B", RequestStatus.pending, 0, none, 900,
             none, none, "s2"⟩)]).1 "e2" =
      some (DbValue.record
        ⟨"e2", "q2", "B", RequestStatus.pending, 0, none, 900,
          none, none, "s2"⟩) := by
  have h := process_timeouts_spec 100
    [("initialized", DbValue.marker),
     ("e1", DbValue.record
       ⟨"e1", "q1", "A", RequestStatus.pending, 0, none, 50,
         none, none, "s1"⟩),
     ("e2", DbValue.record
       ⟨"e2", "q2", "B", RequestStatus.pending, 0, none, 900,
         none, none, "s2"⟩)]
    (by decide) (by decide)
  have h₁ := h.1 "e1"
    ⟨"e1", "q1", "A", RequestStatus.pending, 0, none, 50, none, none, "s1"⟩
    (by simp [dbGet]) (by decide)
  have h₂ := h.2.1 "e2"
    ⟨"e2", "q2", "B", RequestStatus.pending, 0, none, 900, none, none, "s2"⟩
    (by simp [dbGet]) (by decide)
  exact ⟨h₁.1, h₁.2, h₂.1⟩

/-! ### Resolve/timeout race (claim C2) -/

/-- C2 counterexample: in the valid interleaving where the sweep's scan
read happens before the resolve write, BOTH `request_resolved` and
`request_timeout` are emitted for the same expired pending record — the
claim's "exactly one of the events" fails.  (The final stored state also
silently loses the resolve write: the sweep writes its stale pending
snapshot back with status `timeout`.) -/
theorem race_emits_both_events :
    [RaceStep.tRead, RaceStep.rRead, RaceStep.rWrite, RaceStep.rEmit,
      RaceStep.tWrite, RaceStep.tEmit] ∈
      interleavings resolveSteps sweepSteps ∧
    (runRace 100 ⟨"a", "S"⟩ 60
      [RaceStep.tRead, RaceStep.rRead, RaceStep.rWrite, RaceStep.rEmit,
        RaceStep.tWrite, RaceStep.tEmit]
      (raceInit ⟨"r1", "q", "B", RequestStatus.pending, 0, none, 50,
        none, none, "s"⟩)).events =
      [RaceEvent.request_resolved, RaceEvent.request_timeout] ∧
    (runRace 100 ⟨"a", "S"⟩ 60
      [RaceStep.tRead, RaceStep.rRead, RaceStep.rWrite, RaceStep.rEmit,
        RaceStep.tWrite, RaceStep.tEmit]
      (raceInit ⟨"r1", "q", "B", RequestStatus.pending, 0, none, 50,
        none, none, "s"⟩)).store.answer = none := by
  refine ⟨?_, by decide, by decide⟩
  simp [interleavings, resolveSteps, sweepSteps]

/-- C2 amended: for an expired pending record, every interleaving of a
`Resolve` and a sweep iteration on it ends in a terminal stored status
(`resolved` or `timeout`, never still `pending`), and emits at least one
and at most two of the events — but not exactly one: both events are
emitted whenever the sweep's read precedes the resolve's write, because
neither flow re-checks the stored status at write time. -/
theorem race_one_terminal_up_to_two_events (r : HelpRequest)
    (now resolveTime : Nat) (ad : HelpRequestAnswer)
    (h₁ : r.status = RequestStatus.pending) (h₂ : r.timeout_at ≤ now) :
    ∀ s ∈ interleavings resolveSteps sweepSteps,
      ((runRace now ad resolveTime s (raceInit r)).store.status =
          RequestStatus.resolved ∨
        (runRace now ad resolveTime s (raceInit r)).store.status =
          RequestStatus.timeout) ∧
      1 ≤ (runRace now ad resolveTime s (raceInit r)).events.length ∧
      (runRace now ad resolveTime s (raceInit r)).events.length ≤ 2 := by
  intro s hs
  simp only [interleavings, resolveSteps, sweepSteps, List.map,
    List.cons_append, List.nil_append, List.singleton_append,
    List.map_cons, List.map_nil] at hs
  fin_cases hs <;> simp [runRace, raceStep, raceInit, h₁, h₂]

/-- Witness for `race_one_terminal_up_to_two_events` on a concrete
expired pending record and the sequential resolve-then-sweep schedule. -/
theorem race_one_terminal_witness :
    ((runRace 100 ⟨"a", "S"⟩ 60
        [RaceStep.rRead, RaceStep.rWrite, RaceStep.rEmit,
          RaceStep.tRead, RaceStep.tWrite, RaceStep.tEmit]
        (raceInit ⟨"r1", "q", "B", RequestStatus.pending, 0, none, 50,
          none, none, "s"⟩)).store.status = RequestStatus.resolved ∨
      (runRace 100 ⟨"a", "S"⟩ 60
        [RaceStep.rRead, RaceStep.rWrite, RaceStep.rEmit,
          RaceStep.tRead, RaceStep.tWrite, RaceStep.tEmit]
        (raceInit ⟨"r1", "q", "B", RequestStatus.pending, 0, none, 50,
          none, none, "s"⟩)).store.status = RequestStatus.timeout) ∧
    1 ≤ (runRace 100 ⟨"a", "S"⟩ 60
        [RaceStep.rRead, RaceStep.rWrite, RaceStep.rEmit,
          RaceStep.tRead, RaceStep.tWrite, RaceStep.tEmit]
        (raceInit ⟨"r1", "q", "B", RequestStatus.pending, 0, none, 50,
          none, none, "s"⟩)).events.length ∧
    (runRace 100 ⟨"a", "S"⟩ 60
        [RaceStep.rRead, RaceStep.rWrite, RaceStep.rEmit,
          RaceStep.tRead, RaceStep.tWrite, RaceStep.tEmit]
        (raceInit ⟨"r1", "q", "B", RequestStatus.pending, 0, none, 50,
          none, none, "s"⟩)).events.length ≤ 2 :=
  race_one_terminal_up_to_two_events
    ⟨"r1", "q", "B", RequestStatus.pending, 0, none, 50, none, none, "s"⟩
    100 60 ⟨"a", "S"⟩ rfl (by decide)
    [RaceStep.rRead, RaceStep.rWrite, RaceStep.rEmit,
      RaceStep.tRead, RaceStep.tWrite, RaceStep.tEmit]
    (by simp [interleavings, resolveSteps, sweepSteps])

end Receptionist
